import Mathlib

/-!
Verification development for the SUIperCHAT streamer application
(`suiperchat_streamer_app/src-tauri`, Rust).  The Rust code is shallowly
embedded: pure decision logic becomes Lean functions, stateful code becomes
explicit state passing, machine integers become `Nat`/`Int`, and fallible
code returns `Option`/`Except`.  Each definition names the Rust item it
embeds and the file it comes from.
-/

namespace SUIperCHAT

/-! ## Connection manager (`ws_server/connection_manager.rs`, `types.rs`)

`ConnectionManager` holds a `HashMap<String, SessionEntry>` of connections
plus a configured maximum.  The active-connection count is the global atomic
`CONNECTIONS_COUNT` from `types.rs`, touched only by
`increment_connections` / `decrement_connections`, which are called only from
`add_client` and `remove_client`.  The session-actor address stored in a
`SessionEntry` is modelled as an opaque `Nat` handle. -/

/-- `ClientInfo` (`ws_server/client_info.rs`). -/
structure ClientInfo where
  id : String
  ip : String
  connected_at : String
  last_active : String
  messages_sent : Nat
  deriving Repr, DecidableEq

/-- `SessionEntry` (`ws_server/connection_manager.rs`): client info plus the
actor address of the owning WebSocket session (opaque handle). -/
structure SessionEntry where
  client_info : ClientInfo
  addr : Nat
  deriving Repr, DecidableEq

/-- Association-list model of `HashMap<String, SessionEntry>`: keys are kept
unique, `insert` replaces an existing binding (the semantics of
`HashMap::insert`). -/
def mapInsert (k : String) (v : SessionEntry) :
    List (String × SessionEntry) → List (String × SessionEntry)
  | [] => [(k, v)]
  | (k', v') :: rest =>
      if k' = k then (k, v) :: rest else (k', v') :: mapInsert k v rest

/-- `HashMap::remove` on the association-list model (drops the binding for
`k`, if any). -/
def mapRemove (k : String) :
    List (String × SessionEntry) → List (String × SessionEntry)
  | [] => []
  | (k', v') :: rest =>
      if k' = k then rest else (k', v') :: mapRemove k rest

/-- Whether the map holds a binding for `k`. -/
def mapContains (k : String) : List (String × SessionEntry) → Bool
  | [] => false
  | (k', _) :: rest => k' = k || mapContains k rest

/-- `ConnectionManager` state (`ws_server/connection_manager.rs`) together
with the global `CONNECTIONS_COUNT` counter from `types.rs` that the manager
reads and updates. -/
structure ConnectionManager where
  connections : List (String × SessionEntry)
  max_connections : Nat
  connections_count : Nat
  deriving Repr, DecidableEq

/-- `ConnectionManager::new(max_connections)` with the global counter at its
initial value `0`. -/
def ConnectionManager.new (max : Nat) : ConnectionManager :=
  { connections := [], max_connections := max, connections_count := 0 }

/-- `ConnectionManager::add_client` (`connection_manager.rs`, lines 94-152):
if `get_connections_count() >= max_connections` it returns `false` with no
mutation; otherwise it calls `increment_connections()`, inserts the
`SessionEntry` under `client_info.id`, and returns `true`. -/
def ConnectionManager.add_client (m : ConnectionManager) (ci : ClientInfo)
    (addr : Nat) : ConnectionManager × Bool :=
  if m.connections_count ≥ m.max_connections then
    (m, false)
  else
    ({ m with
        connections_count := m.connections_count + 1,
        connections := mapInsert ci.id ⟨ci, addr⟩ m.connections }, true)

/-- `ConnectionManager::remove_client` (`connection_manager.rs`, lines
163-180): removes the entry if present and then calls
`decrement_connections()`; returns `false` (no mutation) if the id was not
present. -/
def ConnectionManager.remove_client (m : ConnectionManager) (id : String) :
    ConnectionManager × Bool :=
  if mapContains id m.connections then
    ({ m with
        connections := mapRemove id m.connections,
        connections_count := m.connections_count - 1 }, true)
  else
    (m, false)

/-- One call in a sequence of `add_client`/`remove_client` invocations. -/
inductive CMOp where
  | add (ci : ClientInfo) (addr : Nat)
  | remove (id : String)
  deriving Repr, DecidableEq

/-- Run a sequence of add/remove calls against a manager state. -/
def runOps (m : ConnectionManager) : List CMOp → ConnectionManager
  | [] => m
  | CMOp.add ci addr :: rest => runOps (m.add_client ci addr).1 rest
  | CMOp.remove id :: rest => runOps (m.remove_client id).1 rest

/-- A sequence of calls is duplicate-free when every `add` call is issued
with an id that is not currently a key of the registry (the ids are
UUIDv4 strings freshly generated per connection in `ClientInfo::new`). -/
def freshAdds (m : ConnectionManager) : List CMOp → Bool
  | [] => true
  | CMOp.add ci addr :: rest =>
      !mapContains ci.id m.connections && freshAdds (m.add_client ci addr).1 rest
  | CMOp.remove id :: rest => freshAdds (m.remove_client id).1 rest

/-- A sample client-info value used in concrete runs. -/
def sampleClient (id : String) : ClientInfo :=
  { id := id, ip := "127.0.0.1", connected_at := "t0", last_active := "t0",
    messages_sent := 0 }

end SUIperCHAT

namespace SUIperCHAT

theorem mapInsert_length_of_not_contains (k : String) (v : SessionEntry) :
    ∀ m, mapContains k m = false → (mapInsert k v m).length = m.length + 1 := by
  intro m
  induction m with
  | nil => intro _; rfl
  | cons hd tl ih =>
    obtain ⟨k', v'⟩ := hd
    intro h
    simp only [mapContains, Bool.or_eq_false_iff, decide_eq_false_iff_not] at h
    obtain ⟨h1, h2⟩ := h
    simp only [mapInsert, if_neg h1, List.length_cons, ih h2]

theorem mapRemove_length_of_contains (k : String) :
    ∀ m, mapContains k m = true → m.length = (mapRemove k m).length + 1 := by
  intro m
  induction m with
  | nil => intro h; simp [mapContains] at h
  | cons hd tl ih =>
    obtain ⟨k', v'⟩ := hd
    intro h
    by_cases heq : k' = k
    · simp [mapRemove, heq]
    · simp only [mapContains, Bool.or_eq_true, decide_eq_true_eq] at h
      rcases h with h | h
      · exact absurd h heq
      · simp only [mapRemove, if_neg heq, List.length_cons, ih h]

theorem runOps_invariant :
    ∀ (ops : List CMOp) (m : ConnectionManager), freshAdds m ops = true →
      m.connections_count = m.connections.length →
      (runOps m ops).connections_count = (runOps m ops).connections.length := by
  intro ops
  induction ops with
  | nil => intro m _ h; exact h
  | cons op rest ih =>
    intro m hf hinv
    match op with
    | CMOp.add ci addr =>
      simp only [runOps]
      simp only [freshAdds, Bool.and_eq_true, Bool.not_eq_true'] at hf
      obtain ⟨hc, hf'⟩ := hf
      refine ih _ hf' ?_
      unfold ConnectionManager.add_client
      by_cases hmax : m.connections_count ≥ m.max_connections
      · rw [if_pos hmax]; exact hinv
      · rw [if_neg hmax]
        simp [mapInsert_length_of_not_contains ci.id ⟨ci, addr⟩ _ hc, hinv]
    | CMOp.remove id =>
      simp only [runOps]
      simp only [freshAdds] at hf
      refine ih _ hf ?_
      unfold ConnectionManager.remove_client
      by_cases hc : mapContains id m.connections = true
      · have hlen := mapRemove_length_of_contains id m.connections hc
        simp only [hc, if_true]
        omega
      · simp only [Bool.not_eq_true] at hc
        simp [hc, hinv]

end SUIperCHAT

namespace SUIperCHAT

/-- C1: the claim as stated quantifies over *every* sequence of add and
remove calls.  `HashMap::insert` replaces an existing binding while
`increment_connections` is called unconditionally on admission, so adding
twice under the same client id desynchronises the global counter from the
registry size: after `add "a"; add "a"` with `max_connections = 2` the
counter is `2` but the registry holds a single entry.  This refutes the
claimed invariant as stated. -/
theorem connection_count_invariant_cex :
    (runOps (ConnectionManager.new 2)
        [CMOp.add (sampleClient "a") 0,
         CMOp.add (sampleClient "a") 1]).connections_count = 2 ∧
    (runOps (ConnectionManager.new 2)
        [CMOp.add (sampleClient "a") 0,
         CMOp.add (sampleClient "a") 1]).connections.length = 1 := by
  constructor <;> rfl

/-- C1 (amended): for every sequence of add/remove calls in which each add
is issued with an id not currently in the registry (as is the case for the
freshly generated UUIDv4 client ids), the global active-connection count
always equals the number of registry entries; moreover `add_client` returns
`false` and performs no mutation whenever the current count is at or above
the configured maximum, and in particular never succeeds when the count
equals the maximum. -/
theorem connection_count_invariant
    (ops : List CMOp) (m : ConnectionManager)
    (hfresh : freshAdds m ops = true)
    (hinv : m.connections_count = m.connections.length) :
    ((runOps m ops).connections_count = (runOps m ops).connections.length)
    ∧ (∀ (m' : ConnectionManager) (ci : ClientInfo) (addr : Nat),
        m'.connections_count ≥ m'.max_connections →
          m'.add_client ci addr = (m', false))
    ∧ (∀ (m' : ConnectionManager) (ci : ClientInfo) (addr : Nat),
        m'.connections_count = m'.max_connections →
          (m'.add_client ci addr).2 = false) := by
  refine ⟨runOps_invariant ops m hfresh hinv, ?_, ?_⟩
  · intro m' ci addr hge
    unfold ConnectionManager.add_client
    rw [if_pos hge]
  · intro m' ci addr heq
    unfold ConnectionManager.add_client
    rw [if_pos (le_of_eq heq.symm)]

/-- Witness for `connection_count_invariant` at a concrete run:
add two distinct clients, remove one, then attempt an add at the limit. -/
theorem connection_count_invariant_witness :
    (freshAdds (ConnectionManager.new 1)
        [CMOp.add (sampleClient "a") 0, CMOp.remove "a",
         CMOp.add (sampleClient "b") 1] = true) ∧
    ((runOps (ConnectionManager.new 1)
        [CMOp.add (sampleClient "a") 0, CMOp.remove "a",
         CMOp.add (sampleClient "b") 1]).connections_count =
      (runOps (ConnectionManager.new 1)
        [CMOp.add (sampleClient "a") 0, CMOp.remove "a",
         CMOp.add (sampleClient "b") 1]).connections.length) := by
  refine ⟨by rfl, ?_⟩
  exact (connection_count_invariant
    [CMOp.add (sampleClient "a") 0, CMOp.remove "a",
     CMOp.add (sampleClient "b") 1]
    (ConnectionManager.new 1) (by rfl) (by rfl)).1

end SUIperCHAT

namespace SUIperCHAT

/-! ## Tunnel supervisor (`ws_server/tunnel.rs`)

`TunnelInfo::start_health_monitor` (lines 138-208) runs a loop every
`HEALTH_CHECK_INTERVAL_SECS` while `should_stop` is unset.  Each tick it
observes the child process; when a restart is needed it increments
`restart_attempts` and either restarts (when `can_restart`) or logs
"Maximum restart attempts reached, giving up" and breaks.  The give-up
branch performs no status emission and no `AppState.tunnel_info` write:
the entire loop body contains no `emit` call, so the reported-status trace
of the monitor is empty. -/

def MAX_RESTART_ATTEMPTS : Nat := 3

/-- `ProcessManager` (`tunnel.rs`, lines 52-61); the `app_handle`/`ws_port`
fields are irrelevant to the monitor's control flow and are omitted. -/
structure ProcessManager where
  restart_attempts : Nat
  is_running : Bool
  deriving Repr, DecidableEq

/-- `ProcessManager::increment_restart_attempts` (`tunnel.rs`, line 103). -/
def ProcessManager.increment_restart_attempts (pm : ProcessManager) :
    ProcessManager :=
  { pm with restart_attempts := pm.restart_attempts + 1 }

/-- `ProcessManager::can_restart` (`tunnel.rs`, lines 107-109). -/
def ProcessManager.can_restart (pm : ProcessManager) : Bool :=
  pm.restart_attempts < MAX_RESTART_ATTEMPTS

/-- What one health-check tick observes about the child process
(`tunnel.rs`, lines 149-179). -/
inductive TickObs where
  /-- `child.try_wait()` returned `Ok(Some(status))`: the process exited. -/
  | exited
  /-- `child.try_wait()` returned `Ok(None)`: still running. -/
  | running
  /-- `child.try_wait()` returned `Err(_)`: a restart is attempted too. -/
  | waitErr
  /-- the `Option<Child>` handle was `None`: a restart is attempted too. -/
  | handleNone
  /-- `process_arc.try_lock()` failed: the tick is skipped (`continue`). -/
  | lockBusy
  deriving Repr, DecidableEq

/-- The `needs_restart` value computed by the tick body, `none` when the
tick is skipped because the lock was busy. -/
def needsRestart : TickObs → Option Bool
  | .lockBusy => none
  | .running => some false
  | .exited => some true
  | .waitErr => some true
  | .handleNone => some true

/-- Observable outcome of a run of the health-monitor loop:
how many times `restart_process` was invoked, whether the loop gave up
(`break` in the `else` branch), the final attempt counter, and the list of
tunnel-status values the loop reported to observers (none: the loop body
contains no emission). -/
structure MonitorOutcome where
  restarts : Nat
  gave_up : Bool
  final_attempts : Nat
  reported_statuses : List String
  deriving Repr, DecidableEq

/-- The health-monitor loop of `TunnelInfo::start_health_monitor`
(`tunnel.rs`, lines 143-207) over a finite trace of tick observations
(the trace ends when `should_stop` is set or the scenario ends).  Whether
an attempted `restart_process` call itself succeeds only affects logging
and `is_running`, never the counter or the loop's control flow, so it is
not part of the observation. -/
def runHealthMonitor (pm : ProcessManager) : List TickObs → MonitorOutcome
  | [] => ⟨0, false, pm.restart_attempts, []⟩
  | obs :: rest =>
    match needsRestart obs with
    | none => runHealthMonitor pm rest
    | some false => runHealthMonitor pm rest
    | some true =>
      let pm' := pm.increment_restart_attempts
      if pm'.can_restart then
        let r := runHealthMonitor { pm' with is_running := true } rest
        { r with restarts := r.restarts + 1 }
      else
        ⟨0, true, pm'.restart_attempts, []⟩

theorem runHealthMonitor_restarts_le (t : List TickObs) :
    ∀ pm : ProcessManager,
      (runHealthMonitor pm t).restarts ≤
        (MAX_RESTART_ATTEMPTS - 1) - pm.restart_attempts := by
  induction t with
  | nil => intro pm; exact Nat.zero_le _
  | cons obs rest ih =>
    intro pm
    match h : needsRestart obs with
    | none => simpa [runHealthMonitor, h] using ih pm
    | some false => simpa [runHealthMonitor, h] using ih pm
    | some true =>
      simp only [runHealthMonitor, h]
      by_cases hcan : (pm.increment_restart_attempts).can_restart = true
      · rw [if_pos hcan]
        have hlt : pm.restart_attempts + 1 < MAX_RESTART_ATTEMPTS := by
          simpa [ProcessManager.can_restart,
            ProcessManager.increment_restart_attempts] using hcan
        have := ih { pm.increment_restart_attempts with is_running := true }
        simp only [ProcessManager.increment_restart_attempts] at this ⊢
        omega
      · rw [if_neg hcan]
        exact Nat.zero_le _

end SUIperCHAT

namespace SUIperCHAT

/-- C4: four consecutive observed exits of the child process make the
supervisor give up after the third counter increment (two completed
restart invocations), and the loop reports *no* tunnel status at all —
in particular it never reports `tunnel_status = Failed`.  The `Failed`
status only ever arises in `emit_server_status_with_tunnel`
(`server_manager.rs`, lines 875-877) from a stored `Some(Err(_))`
`tunnel_info`, which the health monitor never writes.  This refutes the
"reports `tunnel_status = Failed`" part of the claim. -/
theorem tunnel_monitor_gives_up_silently_cex :
    runHealthMonitor ⟨0, true⟩ [.exited, .exited, .exited, .exited] =
      ⟨2, true, 3, []⟩ := by
  rfl

/-- C4 (amended): for every run of the health loop starting from a fresh
`ProcessManager` (attempt counter `0`) and every trace of tick
observations, at most 3 restart attempts are made (the counter never
exceeds `MAX_RESTART_ATTEMPTS = 3`, and in fact at most 2 `restart_process`
invocations happen) — the supervisor never retries unboundedly; on 4
consecutive exits it gives up, having reported no tunnel status (the code
does not report `Failed`; it only logs) and having touched nothing beyond
the tunnel process: the rest of the server is not torn down. -/
theorem tunnel_monitor_restart_bound
    (pm : ProcessManager) (t : List TickObs)
    (hfresh : pm.restart_attempts = 0) :
    ((runHealthMonitor pm t).restarts ≤ 3
      ∧ (runHealthMonitor pm t).restarts ≤ 2)
    ∧ runHealthMonitor ⟨0, true⟩ [.exited, .exited, .exited, .exited] =
        ⟨2, true, 3, []⟩ := by
  have hb := runHealthMonitor_restarts_le t pm
  rw [hfresh] at hb
  simp only [MAX_RESTART_ATTEMPTS] at hb
  exact ⟨⟨by omega, by omega⟩, by rfl⟩

/-- Witness for `tunnel_monitor_restart_bound` on a concrete trace with
interleaved healthy ticks. -/
theorem tunnel_monitor_restart_bound_witness :
    (ProcessManager.restart_attempts ⟨0, true⟩ = 0) ∧
    ((runHealthMonitor ⟨0, true⟩
        [.exited, .running, .lockBusy, .exited, .exited]).restarts ≤ 3) := by
  refine ⟨rfl, ?_⟩
  exact (tunnel_monitor_restart_bound ⟨0, true⟩
    [.exited, .running, .lockBusy, .exited, .exited] rfl).1.1

end SUIperCHAT

namespace SUIperCHAT

/-! ## Wallet address validation (`commands/wallet.rs`)

`set_wallet_address` first calls `str::trim` on the input, then validates
the *trimmed* string: it must start with `"0x"`, have byte length 66, and
all characters after the `"0x"` prefix must satisfy
`char::is_ascii_hexdigit`.  On success the trimmed address is stored; on
any validation failure an `Err` is returned before the stored address is
touched.  Strings are modelled as `List Char`; `len()` counts UTF-8 bytes,
modelled with `Char.utf8Size`. -/

/-- Rust `char::is_whitespace`: the Unicode `White_Space` code points. -/
def isRustWhitespace (c : Char) : Bool :=
  let n := c.toNat
  (0x09 ≤ n && n ≤ 0x0D) || n == 0x20 || n == 0x85 || n == 0xA0 ||
  n == 0x1680 || (0x2000 ≤ n && n ≤ 0x200A) || n == 0x2028 || n == 0x2029 ||
  n == 0x202F || n == 0x205F || n == 0x3000

/-- Rust `str::trim`: strip leading and trailing whitespace. -/
def rustTrim (s : List Char) : List Char :=
  ((s.dropWhile isRustWhitespace).reverse.dropWhile isRustWhitespace).reverse

/-- Rust `str::len`: the UTF-8 byte length. -/
def utf8Len (s : List Char) : Nat := (s.map Char.utf8Size).sum

/-- Rust `char::is_ascii_hexdigit`. -/
def isAsciiHexdigit (c : Char) : Bool :=
  ('0' ≤ c && c ≤ '9') || ('a' ≤ c && c ≤ 'f') || ('A' ≤ c && c ≤ 'F')

/-- Rust `str::starts_with("0x")`. -/
def startsWith0x : List Char → Bool
  | '0' :: 'x' :: _ => true
  | _ => false

/-- The wallet slot of `AppState` (`state.rs`). -/
structure WalletState where
  wallet_address : Option (List Char)
  deriving Repr, DecidableEq

/-- `set_wallet_address` (`commands/wallet.rs`, lines 36-79): trim, then
validate prefix, byte length, and hex digits in that order; store the
trimmed address only when all checks pass. -/
def set_wallet_address (address : List Char) (st : WalletState) :
    Except String Unit × WalletState :=
  let trimmed := rustTrim address
  if !startsWith0x trimmed then
    (.error "Invalid SUI wallet address: Must start with 0x.", st)
  else if utf8Len trimmed ≠ 66 then
    (.error "Invalid SUI wallet address: Expected length 66.", st)
  else if !(trimmed.drop 2).all isAsciiHexdigit then
    (.error "Invalid SUI wallet address: non-hexadecimal characters.", st)
  else
    (.ok (), { wallet_address := some trimmed })

/-- The wallet-address format in the specification's words: the string
itself starts with `0x` followed by exactly 64 hexadecimal characters
(66 characters total).  Stated for comparison with `set_wallet_address`. -/
def claimWalletFormat (s : List Char) : Bool :=
  startsWith0x s && s.length == 66 && (s.drop 2).all isAsciiHexdigit

theorem utf8Size_of_le (c : Char) (h : c.val ≤ 0x7F) : c.utf8Size = 1 := by
  unfold Char.utf8Size
  dsimp only
  split
  · rfl
  · next hn => exact absurd h hn

theorem utf8Size_eq_one_of_hex (c : Char) (h : isAsciiHexdigit c = true) :
    c.utf8Size = 1 := by
  unfold isAsciiHexdigit at h
  simp only [Bool.or_eq_true, Bool.and_eq_true, decide_eq_true_eq] at h
  apply utf8Size_of_le
  obtain (⟨h1, h2⟩ | ⟨h1, h2⟩) | ⟨h1, h2⟩ := h
  · exact UInt32.le_trans (Char.le_def.mp h2) (by decide)
  · exact UInt32.le_trans (Char.le_def.mp h2) (by decide)
  · exact UInt32.le_trans (Char.le_def.mp h2) (by decide)

theorem utf8Len_eq_length_of_hex :
    ∀ s : List Char, s.all isAsciiHexdigit = true → utf8Len s = s.length := by
  intro s
  induction s with
  | nil => intro _; rfl
  | cons c rest ih =>
    intro h
    simp only [List.all_cons, Bool.and_eq_true] at h
    simp only [utf8Len, List.map_cons, List.sum_cons,
      utf8Size_eq_one_of_hex c h.1, List.length_cons]
    have := ih h.2
    simp only [utf8Len] at this
    omega

end SUIperCHAT

namespace SUIperCHAT

theorem startsWith0x_shape (t : List Char) (h : startsWith0x t = true) :
    ∃ rest, t = '0' :: 'x' :: rest := by
  unfold startsWith0x at h
  split at h
  · exact ⟨_, rfl⟩
  · exact absurd h (by simp)

theorem utf8Len_0x (rest : List Char)
    (hhex : rest.all isAsciiHexdigit = true) :
    utf8Len ('0' :: 'x' :: rest) = rest.length + 2 := by
  have := utf8Len_eq_length_of_hex rest hhex
  have h0 : Char.utf8Size '0' = 1 := by decide
  have hx : Char.utf8Size 'x' = 1 := by decide
  simp only [utf8Len, List.map_cons, List.sum_cons] at *
  omega

theorem claimWalletFormat_iff (t : List Char) :
    claimWalletFormat t = true ↔
      (startsWith0x t = true ∧ utf8Len t = 66 ∧
       (t.drop 2).all isAsciiHexdigit = true) := by
  unfold claimWalletFormat
  simp only [Bool.and_eq_true, beq_iff_eq]
  constructor
  · rintro ⟨⟨hs, hlen⟩, hhex⟩
    obtain ⟨rest, rfl⟩ := startsWith0x_shape _ hs
    simp only [List.drop_succ_cons, List.drop_zero] at hhex
    refine ⟨hs, ?_, by simpa using hhex⟩
    rw [utf8Len_0x rest hhex]
    simp only [List.length_cons] at hlen
    omega
  · rintro ⟨hs, hlen, hhex⟩
    obtain ⟨rest, rfl⟩ := startsWith0x_shape _ hs
    simp only [List.drop_succ_cons, List.drop_zero] at hhex
    refine ⟨⟨hs, ?_⟩, by simpa using hhex⟩
    rw [utf8Len_0x rest hhex] at hlen
    simp only [List.length_cons]
    omega

theorem set_wallet_address_ok_iff (address : List Char) (st : WalletState) :
    (set_wallet_address address st).1 = .ok () ↔
      (startsWith0x (rustTrim address) = true ∧
       utf8Len (rustTrim address) = 66 ∧
       ((rustTrim address).drop 2).all isAsciiHexdigit = true) := by
  unfold set_wallet_address
  by_cases h1 : startsWith0x (rustTrim address) = true
  · by_cases h2 : utf8Len (rustTrim address) = 66
    · by_cases h3 : ((rustTrim address).drop 2).all isAsciiHexdigit = true
      · simp [h1, h2, h3]
      · simp [h1, h2, h3]
    · simp [h1, h2]
  · simp [h1]

end SUIperCHAT

namespace SUIperCHAT

/-- C7: the claim's "iff" is stated on the raw input string, but
`set_wallet_address` trims the input first (`address.trim()`,
`commands/wallet.rs` line 43).  A string with a leading space followed by
`0x` and 64 hex digits does not itself start with `0x` (so the claimed
format rejects it), yet the command accepts it. -/
theorem wallet_address_format_cex :
    ((set_wallet_address (' ' :: '0' :: 'x' :: List.replicate 64 'a')
        ⟨none⟩).1 = Except.ok ())
    ∧ claimWalletFormat (' ' :: '0' :: 'x' :: List.replicate 64 'a')
        = false := by
  constructor <;> rfl

/-- C7 (amended): a string is accepted by `set_wallet_address` iff its
*trimmed* form starts with `0x` followed by exactly 64 hexadecimal
characters (66 total); on rejection the stored address is unchanged, and
on acceptance the trimmed string is stored. -/
theorem wallet_address_format (address : List Char) (st : WalletState) :
    ((set_wallet_address address st).1 = .ok () ↔
        claimWalletFormat (rustTrim address) = true)
    ∧ (∀ e, (set_wallet_address address st).1 = .error e →
        (set_wallet_address address st).2 = st)
    ∧ ((set_wallet_address address st).1 = .ok () →
        (set_wallet_address address st).2 = ⟨some (rustTrim address)⟩) := by
  refine ⟨by rw [set_wallet_address_ok_iff, claimWalletFormat_iff], ?_, ?_⟩
  · intro e he
    by_cases h1 : startsWith0x (rustTrim address) = true
    · by_cases h2 : utf8Len (rustTrim address) = 66
      · by_cases h3 : ((rustTrim address).drop 2).all isAsciiHexdigit = true
        · unfold set_wallet_address at he
          simp [h1, h2, h3] at he
        · unfold set_wallet_address
          simp [h1, h2, h3]
      · unfold set_wallet_address
        simp [h1, h2]
    · unfold set_wallet_address
      simp [h1]
  · intro hok
    rw [set_wallet_address_ok_iff] at hok
    obtain ⟨h1, h2, h3⟩ := hok
    unfold set_wallet_address
    simp [h1, h2, h3]

/-- Witness for `wallet_address_format`: a valid address is stored
(trimmed), an invalid one leaves the previous address untouched. -/
theorem wallet_address_format_witness :
    ((set_wallet_address ('0' :: 'x' :: List.replicate 64 'b')
        ⟨none⟩).2 = ⟨some ('0' :: 'x' :: List.replicate 64 'b')⟩)
    ∧ ((set_wallet_address ['z', 'z']
        ⟨some ('0' :: 'x' :: List.replicate 64 'b')⟩).2 =
          ⟨some ('0' :: 'x' :: List.replicate 64 'b')⟩) := by
  constructor
  · have h := (wallet_address_format ('0' :: 'x' :: List.replicate 64 'b')
      ⟨none⟩).2.2 (by rfl)
    rw [h]
    rfl
  · exact (wallet_address_format ['z', 'z']
      ⟨some ('0' :: 'x' :: List.replicate 64 'b')⟩).2.1 _ (by rfl)

end SUIperCHAT

namespace SUIperCHAT

/-! ## NAT/CGNAT prober (`ws_server/ip_utils.rs`, `ws_server/server_manager.rs`)

`check_cgnat(public_ip)` performs a STUN exchange and then decides purely
from its outcome: a success-class response carrying an XOR-mapped address
yields `Ok(stun_ip != public_ip)`; every other outcome (client creation
failure, request failure, non-success class, missing XOR-mapped address)
yields `Err(..)`.  The network exchange itself is an input to the model.
The caller in `run_servers` (`server_manager.rs`, lines 442-471) stores
`cgnat_detected := b` on `Ok(b)` and `cgnat_detected := true` on `Err(_)`
(fail-safe). -/

/-- Model of `std::net::IpAddr`: only equality of addresses matters. -/
abbrev Ip := Nat

/-- `stun_client::Class` of the STUN response. -/
inductive StunClass where
  | successResponse
  | errorResponse
  | indication
  deriving Repr, DecidableEq

/-- Outcome of the STUN exchange performed inside `check_cgnat`. -/
inductive StunOutcome where
  /-- `stun_client::Client::new` failed. -/
  | clientCreateFailed (e : String)
  /-- `client.binding_request(..)` returned `Err(_)`. -/
  | requestFailed (e : String)
  /-- a response with its class and optional XOR-mapped address. -/
  | response (cls : StunClass) (xorMapped : Option Ip)
  deriving Repr, DecidableEq

/-- `check_cgnat` (`ws_server/ip_utils.rs`, lines 114-176) as a function of
the public IP and the STUN-exchange outcome. -/
def check_cgnat (public_ip : Ip) (o : StunOutcome) : Except String Bool :=
  match o with
  | .clientCreateFailed e =>
      .error ("STUN client creation failed: " ++ e)
  | .requestFailed e => .error ("STUN query failed: " ++ e)
  | .response cls xm =>
    if cls = .successResponse then
      match xm with
      | some stun_ip =>
          if stun_ip = public_ip then .ok false else .ok true
      | none => .error "XOR-MAPPED-ADDRESS missing from STUN response"
    else
      .error "STUN response returned an error class"

/-- The caller's fail-safe in `run_servers` (`server_manager.rs`): what gets
stored into `cgnat_detected`. -/
def cgnatFailSafe : Except String Bool → Bool
  | .ok b => b
  | .error _ => true

/-- C8: `check_cgnat` returns `Ok(false)` when the STUN XOR-mapped address
equals the HTTP-reported public IP and `Ok(true)` when it differs; it
returns `Ok` exactly when the exchange produced a success-class response
carrying an XOR-mapped address, and an error otherwise; and on every error
the caller records CGNAT as suspected (`cgnat_detected := true`). -/
theorem cgnat_detection :
    (∀ ip j : Ip,
      check_cgnat ip (.response .successResponse (some j)) = .ok (j != ip))
    ∧ (∀ (ip : Ip) (o : StunOutcome),
        (check_cgnat ip o).isOk = true ↔
          ∃ j, o = .response .successResponse (some j))
    ∧ (∀ e, cgnatFailSafe (.error e) = true)
    ∧ (∀ b, cgnatFailSafe (.ok b) = b) := by
  refine ⟨?_, ?_, fun _ => rfl, fun _ => rfl⟩
  · intro ip j
    by_cases h : j = ip
    · simp [check_cgnat, h]
    · simp [check_cgnat, h]
  · intro ip o
    match o with
    | .clientCreateFailed e => simp [check_cgnat, Except.isOk, Except.toBool]
    | .requestFailed e => simp [check_cgnat, Except.isOk, Except.toBool]
    | .response cls xm =>
      match cls with
      | .successResponse =>
        match xm with
        | some j =>
          constructor
          · intro _; exact ⟨j, rfl⟩
          · intro _
            by_cases h : j = ip <;> simp [check_cgnat, Except.isOk, Except.toBool, h]
        | none => simp [check_cgnat, Except.isOk, Except.toBool]
      | .errorResponse => simp [check_cgnat, Except.isOk, Except.toBool]
      | .indication => simp [check_cgnat, Except.isOk, Except.toBool]

end SUIperCHAT

namespace SUIperCHAT

/-! ## Message types and the JSON wire protocol (`types.rs`)

JSON values are modelled as trees (`serde_json` text round-trips
faithfully at this level; numbers that occur in the claims are `i64`
timestamps, modelled as `Int`).  `ClientMessage` is an untagged serde
union tried in declaration order: `Superchat`, then `Chat`, then
`GetHistory`.  Struct deserialization looks fields up by name, ignores
unknown fields, and treats an absent or `null` `Option` field as `None`. -/

/-- A JSON value. -/
inductive Json where
  | null
  | bool (b : Bool)
  | num (n : Int)
  | str (s : String)
  | arr (xs : List Json)
  | obj (fields : List (String × Json))

/-- `MessageType` (`types.rs`, lines 63-87). -/
inductive MessageType where
  | chat
  | superchat
  | ping
  | pong
  | error
  | connectionStatus
  | disconnected
  | getHistory
  | historyData
  deriving Repr, DecidableEq

/-- The serde wire string of each `MessageType` variant
(`rename_all = "lowercase"` with explicit renames for `Disconnected`,
`GetHistory` and `HistoryData`). -/
def messageTypeStr : MessageType → String
  | .chat => "chat"
  | .superchat => "superchat"
  | .ping => "ping"
  | .pong => "pong"
  | .error => "error"
  | .connectionStatus => "connectionstatus"
  | .disconnected => "DISCONNECTED"
  | .getHistory => "GET_HISTORY"
  | .historyData => "HISTORY_DATA"

/-- Deserialize a `MessageType` from a JSON value. -/
def parseMessageType : Json → Option MessageType
  | .str s =>
    if s = "chat" then some .chat
    else if s = "superchat" then some .superchat
    else if s = "ping" then some .ping
    else if s = "pong" then some .pong
    else if s = "error" then some .error
    else if s = "connectionstatus" then some .connectionStatus
    else if s = "DISCONNECTED" then some .disconnected
    else if s = "GET_HISTORY" then some .getHistory
    else if s = "HISTORY_DATA" then some .historyData
    else none
  | _ => none

/-- `ChatMessage` (`types.rs`, lines 120-135); `content` is serialized under
the key `"message"`. -/
structure ChatMessage where
  message_type : MessageType
  id : String
  display_name : String
  content : String
  timestamp : Option Int
  deriving Repr, DecidableEq

/-- `SuperchatData` (`types.rs`, lines 92-102); the `f64` amount is opaque
to every claim and modelled as `Int`. -/
structure SuperchatData where
  amount : Int
  coin : String
  tx_hash : String
  wallet_address : String
  deriving Repr, DecidableEq

/-- `SuperchatMessage` (`types.rs`, lines 140-157). -/
structure SuperchatMessage where
  message_type : MessageType
  id : String
  display_name : String
  content : String
  superchat : SuperchatData
  timestamp : Option Int
  deriving Repr, DecidableEq

/-- `ClientMessage` (`types.rs`, lines 163-180): untagged serde union. -/
inductive ClientMessage where
  | superchat (m : SuperchatMessage)
  | chat (m : ChatMessage)
  | getHistory (message_type : MessageType) (limit : Option Int)
      (before_timestamp : Option Int)
  deriving Repr, DecidableEq

/-- serde `Serialize` for `ChatMessage`: fields in declaration order,
`timestamp` skipped when `None` (`skip_serializing_if = "Option::is_none"`). -/
def serializeChatMessage (c : ChatMessage) : Json :=
  .obj ([("type", .str (messageTypeStr c.message_type)),
         ("id", .str c.id),
         ("display_name", .str c.display_name),
         ("message", .str c.content)] ++
        (match c.timestamp with
         | some t => [("timestamp", .num t)]
         | none => []))

/-- Look a field up by name in a JSON object. -/
def jsonLookup (fields : List (String × Json)) (k : String) : Option Json :=
  match fields with
  | [] => none
  | (k', v) :: rest => if k' = k then some v else jsonLookup rest k

/-- The object fields of a JSON value, if it is an object. -/
def asObj : Json → Option (List (String × Json))
  | .obj fields => some fields
  | _ => none

/-- The string payload of a JSON value, if it is a string. -/
def asStr : Json → Option String
  | .str s => some s
  | _ => none

/-- The numeric payload of a JSON value, if it is a number. -/
def asNum : Json → Option Int
  | .num n => some n
  | _ => none

/-- serde deserialization of an `Option<i64>` struct field: absent or
`null` is `None`, a number is `Some`, anything else is an error. -/
def optI64Field (fields : List (String × Json)) (k : String) :
    Option (Option Int) :=
  match jsonLookup fields k with
  | none => some none
  | some .null => some none
  | some (.num n) => some (some n)
  | some _ => none

/-- serde `Deserialize` for `ChatMessage`. -/
def parseChatMessage (j : Json) : Option ChatMessage := do
  let fields ← asObj j
  let mt ← parseMessageType (← jsonLookup fields "type")
  let id ← asStr (← jsonLookup fields "id")
  let dn ← asStr (← jsonLookup fields "display_name")
  let content ← asStr (← jsonLookup fields "message")
  let ts ← optI64Field fields "timestamp"
  pure ⟨mt, id, dn, content, ts⟩

/-- serde `Deserialize` for `SuperchatData`. -/
def parseSuperchatData (j : Json) : Option SuperchatData := do
  let fields ← asObj j
  let amount ← asNum (← jsonLookup fields "amount")
  let coin ← asStr (← jsonLookup fields "coin")
  let tx ← asStr (← jsonLookup fields "tx_hash")
  let wa ← asStr (← jsonLookup fields "wallet_address")
  pure ⟨amount, coin, tx, wa⟩

/-- serde `Deserialize` for `SuperchatMessage`. -/
def parseSuperchatMessage (j : Json) : Option SuperchatMessage := do
  let fields ← asObj j
  let mt ← parseMessageType (← jsonLookup fields "type")
  let id ← asStr (← jsonLookup fields "id")
  let dn ← asStr (← jsonLookup fields "display_name")
  let content ← asStr (← jsonLookup fields "message")
  let sc ← parseSuperchatData (← jsonLookup fields "superchat")
  let ts ← optI64Field fields "timestamp"
  pure ⟨mt, id, dn, content, sc, ts⟩

/-- serde `Deserialize` for the `GetHistory` variant. -/
def parseGetHistory (j : Json) : Option ClientMessage := do
  let fields ← asObj j
  let mt ← parseMessageType (← jsonLookup fields "type")
  let lim ← optI64Field fields "limit"
  let before ← optI64Field fields "before_timestamp"
  pure (.getHistory mt lim before)

/-- serde `Deserialize` for the untagged `ClientMessage` union: variants
are tried in declaration order (`Superchat`, `Chat`, `GetHistory`). -/
def parseClientMessage (j : Json) : Option ClientMessage :=
  match parseSuperchatMessage j with
  | some m => some (.superchat m)
  | none =>
    match parseChatMessage j with
    | some m => some (.chat m)
    | none => parseGetHistory j

/-- C9: parsing the broadcast re-serialization of an accepted chat message
recovers the message exactly — in particular the same `display_name`,
`content` and `id`.  `WsSession::broadcast_message` (`session.rs`, lines
260-289) broadcasts `serde_json::to_string(&chat_msg)`, i.e.
`serializeChatMessage`, and a viewer parses it as a `ClientMessage`. -/
theorem session_chat_roundtrip (c : ChatMessage) :
    parseClientMessage (serializeChatMessage c) = some (.chat c) := by
  obtain ⟨mt, id, dn, content, ts⟩ := c
  cases mt <;> cases ts <;> rfl

end SUIperCHAT

namespace SUIperCHAT

/-! ## WebSocket session protocol (`ws_server/session.rs`, `types.rs`)

`WsSession` keeps `hb: Instant`, the time of the last liveness refresh.
The `StreamHandler` impl (lines 556-637) sets `self.hb = Instant::now()`
only in the `Pong` and `Ping` arms; text, binary and all other frames
leave it untouched.  The heartbeat timer (`WsSession::hb`, lines 104-125)
runs every `HEARTBEAT_INTERVAL = 5` seconds and, when
`now - hb > CLIENT_TIMEOUT = 10` seconds, removes the client from the
connection manager and stops the actor without sending anything to the
client; otherwise it sends a ping.  Time is modelled in whole seconds. -/

/-- `HEARTBEAT_INTERVAL` (`types.rs`, line 18), in seconds. -/
def HEARTBEAT_INTERVAL : Nat := 5

/-- `CLIENT_TIMEOUT` (`types.rs`, line 19), in seconds. -/
def CLIENT_TIMEOUT : Nat := 10

/-- The liveness-relevant state of `WsSession`: the `hb` instant. -/
structure WsSession where
  hb : Nat
  deriving Repr, DecidableEq

/-- An inbound `ws::Message` frame.  A text frame carries its payload as a
parsed JSON tree; a tree that does not parse as a `ClientMessage` models
text whose `serde_json::from_str` fails. -/
inductive Frame where
  | ping (payload : String)
  | pong (payload : String)
  | text (j : Json)
  | binary (len : Nat)
  | close
  | continuation
  | nop
  | protocolError

/-- An externally observable effect of the session actor.
`sendError m` is `ctx.text(create_error_response(m))` — a structured
`{"type":"error", "message": m, "timestamp": ...}` response. -/
inductive Action where
  | sendError (msg : String)
  | sendPong
  | sendPing
  | persist (m : ClientMessage)
  | broadcast (m : ClientMessage)
  | history (limit : Option Int) (before_timestamp : Option Int)
  | close
  | stop
  | removeClient
  deriving Repr, DecidableEq

/-- The `StreamHandler::handle` match (`session.rs`, lines 558-636):
pong/ping refresh `hb` (ping also answers pong); text parses the JSON and
dispatches (history request, or persist + broadcast, or an error response
on parse failure, the session staying open); binary answers an
"unsupported" error *without* stopping; close closes and stops;
continuation answers an "unsupported" error and stops; protocol errors
answer an error and stop. -/
def handle (now : Nat) (st : WsSession) : Frame → WsSession × List Action
  | .pong _ => ({ hb := now }, [])
  | .ping _ => ({ hb := now }, [.sendPong])
  | .text j =>
    match parseClientMessage j with
    | some (.getHistory _ lim before) => (st, [.history lim before])
    | some m => (st, [.persist m, .broadcast m])
    | none => (st, [.sendError "Invalid message format"])
  | .binary _ => (st, [.sendError "バイナリメッセージはサポートされていません"])
  | .close => (st, [.close, .stop])
  | .continuation =>
      (st, [.sendError "分割メッセージはサポートされていません", .stop])
  | .nop => (st, [])
  | .protocolError => (st, [.sendError "WebSocketプロトコルエラー", .stop])

/-- One firing of the heartbeat timer (`WsSession::hb`, `session.rs`,
lines 104-125): on timeout remove the client from the manager and stop
silently, otherwise send a ping. -/
def hbTick (now : Nat) (st : WsSession) : List Action :=
  if now - st.hb > CLIENT_TIMEOUT then [.removeClient, .stop]
  else [.sendPing]

/-- A sample valid chat-message JSON payload. -/
def sampleChatJson : Json :=
  serializeChatMessage ⟨.chat, "id1", "alice", "hi", some 5⟩

end SUIperCHAT

namespace SUIperCHAT

/-- C5: the claim counts "any inbound frame" as a liveness signal, but the
code refreshes `hb` only in the `Pong` and `Ping` arms.  A session whose
last refresh was at time 0 receives a valid chat text frame at time 8;
at the tick at time 11 the frame was seen 3 seconds ago (well within the
last 10 seconds), yet the session is dropped because `hb` is still 0. -/
theorem heartbeat_liveness_cex :
    ((handle 8 ⟨0⟩ (.text sampleChatJson)).1.hb = 0)
    ∧ (11 - 8 ≤ CLIENT_TIMEOUT)
    ∧ (hbTick 11 (handle 8 ⟨0⟩ (.text sampleChatJson)).1 =
        [Action.removeClient, Action.stop]) := by
  refine ⟨rfl, by decide, rfl⟩

/-- C5 (amended): the heartbeat timer fires every `HEARTBEAT_INTERVAL = 5`
seconds; at each tick, if no *ping or pong* frame has been received within
the last `CLIENT_TIMEOUT = 10` seconds the connection is dropped silently
(the client is removed from the manager and the actor stopped, with no
message sent to the client), and otherwise a ping is sent.  Only inbound
ping and pong frames refresh the liveness instant; text and binary frames
do not. -/
theorem heartbeat_timeout (st : WsSession) (now : Nat) :
    (HEARTBEAT_INTERVAL = 5 ∧ CLIENT_TIMEOUT = 10)
    ∧ (now - st.hb > CLIENT_TIMEOUT →
        hbTick now st = [Action.removeClient, Action.stop])
    ∧ (¬ now - st.hb > CLIENT_TIMEOUT → hbTick now st = [Action.sendPing])
    ∧ (∀ p, (handle now st (.ping p)).1.hb = now)
    ∧ (∀ p, (handle now st (.pong p)).1.hb = now)
    ∧ (∀ j, (handle now st (.text j)).1.hb = st.hb)
    ∧ (∀ n, (handle now st (.binary n)).1.hb = st.hb) := by
  refine ⟨⟨rfl, rfl⟩, ?_, ?_, fun _ => rfl, fun _ => rfl, ?_, fun _ => rfl⟩
  · intro h
    unfold hbTick
    rw [if_pos h]
  · intro h
    unfold hbTick
    rw [if_neg h]
  · intro j
    rcases hp : parseClientMessage j with _ | m
    · simp [handle, hp]
    · rcases m with m | m | ⟨mt, lim, before⟩ <;> simp [handle, hp]

/-- Witness for `heartbeat_timeout`: a timed-out tick drops, a live tick
pings. -/
theorem heartbeat_timeout_witness :
    hbTick 11 ⟨0⟩ = [Action.removeClient, Action.stop]
    ∧ hbTick 9 ⟨0⟩ = [Action.sendPing] := by
  exact ⟨(heartbeat_timeout ⟨0⟩ 11).2.1 (by decide),
         (heartbeat_timeout ⟨0⟩ 9).2.2.1 (by decide)⟩

/-- C6: an inbound binary frame is answered with a structured
"unsupported" error but the session is *not* closed: the `Binary` arm
(`session.rs`, lines 609-613) sends the error text and falls through
without `ctx.stop()` or `ctx.close()`, so the connection remains open.
Only the `Continuation` arm stops the session. -/
theorem binary_frame_stays_open_cex :
    (handle 3 ⟨0⟩ (.binary 4) =
      (⟨0⟩, [Action.sendError "バイナリメッセージはサポートされていません"]))
    ∧ Action.stop ∉ (handle 3 ⟨0⟩ (.binary 4)).2
    ∧ Action.close ∉ (handle 3 ⟨0⟩ (.binary 4)).2 := by
  refine ⟨rfl, by decide, by decide⟩

/-- C6 (amended): an inbound binary frame is answered with a structured
"unsupported" error and the session stays open (no stop, no close); an
inbound continuation/fragmented frame is answered with a structured
"unsupported" error and then the session is stopped. -/
theorem unsupported_frames (st : WsSession) (now : Nat) :
    (∀ n, handle now st (.binary n) =
      (st, [Action.sendError "バイナリメッセージはサポートされていません"]))
    ∧ (handle now st .continuation =
      (st, [Action.sendError "分割メッセージはサポートされていません",
            Action.stop])) :=
  ⟨fun _ => rfl, rfl⟩

end SUIperCHAT

namespace SUIperCHAT

/-! ## Message history (`database.rs`, `ws_server/session.rs`)

`get_messages_by_session_id` (`database.rs`, lines 202-245) clamps the
limit (`<= 0 → 50`, `> 1000 → 1000`), selects the rows of the session
(optionally older than `before_timestamp`) ordered `timestamp DESC` with
`LIMIT safe_limit + 1`, then sorts the fetched rows ascending by
timestamp.  `WsSession::handle_get_history` (`session.rs`, lines 334-447)
uses `limit.unwrap_or(50)` (unclamped), sets
`has_more = messages.len() > safe_limit`, drops the *last* element of the
ascending list when `has_more`, and converts to `SerializableMessage`.
Timestamps are Unix milliseconds (`Int`); the `f64` amount is modelled as
`Rat`.  Both the SQL `ORDER BY` and Rust's stable `sort_by` are modelled
with `List.insertionSort`, which is also stable. -/

/-- `db_models::Message`. -/
structure DbMessage where
  id : String
  timestamp : Int
  display_name : String
  content : String
  amount : Option Rat
  coin : Option String
  tx_hash : Option String
  wallet_address : Option String
  session_id : Option String
  deriving Repr, DecidableEq

/-- `SerializableSuperchatData` (`types.rs`, lines 250-260). -/
structure SerializableSuperchatData where
  amount : Rat
  coin : String
  tx_hash : String
  wallet_address : String
  deriving Repr, DecidableEq

/-- `SerializableMessage` (`types.rs`, lines 228-244). -/
structure SerializableMessage where
  id : String
  message_type : String
  display_name : String
  message : String
  timestamp : Int
  superchat : Option SerializableSuperchatData
  deriving Repr, DecidableEq

/-- `impl From<db_models::Message> for SerializableMessage`
(`types.rs`, lines 262-299). -/
def SerializableMessage.fromDb (m : DbMessage) : SerializableMessage :=
  let is_superchat := m.amount.isSome && decide (m.amount.getD 0 > 0)
  let superchat :=
    if is_superchat then
      some ⟨m.amount.getD 0, m.coin.getD "SUI", m.tx_hash.getD "unknown",
            m.wallet_address.getD "unknown"⟩
    else none
  { id := m.id,
    message_type := if is_superchat then "superchat" else "chat",
    display_name := m.display_name,
    message := m.content,
    timestamp := m.timestamp,
    superchat := superchat }

/-- The `WHERE` clause: `session_id = ?` and optionally `timestamp < ?`. -/
def matchesQuery (sid : String) (before : Option Int) (m : DbMessage) :
    Bool :=
  m.session_id == some sid &&
    (match before with
     | some t => decide (m.timestamp < t)
     | none => true)

/-- `ORDER BY timestamp DESC` (stable). -/
def sortDescByTimestamp (l : List DbMessage) : List DbMessage :=
  List.insertionSort (fun a b => b.timestamp ≤ a.timestamp) l

/-- Rust's `sort_by(|a, b| a.timestamp.cmp(&b.timestamp))` (stable). -/
def sortAscByTimestamp (l : List DbMessage) : List DbMessage :=
  List.insertionSort (fun a b => a.timestamp ≤ b.timestamp) l

/-- `get_messages_by_session_id` (`database.rs`, lines 202-245). -/
def get_messages_by_session_id (db : List DbMessage) (sid : String)
    (limit : Int) (before : Option Int) : List DbMessage :=
  let safe_limit : Int :=
    if limit ≤ 0 then 50 else if limit > 1000 then 1000 else limit
  let fetched :=
    (sortDescByTimestamp (db.filter (matchesQuery sid before))).take
      (safe_limit + 1).toNat
  sortAscByTimestamp fetched

/-- `WsSession::handle_get_history` (`session.rs`, lines 334-447): the
response payload (converted message list and `has_more` flag). -/
def handle_get_history (db : List DbMessage) (sid : String)
    (limit : Option Int) (before : Option Int) :
    List SerializableMessage × Bool :=
  let safe_limit := limit.getD 50
  let messages := get_messages_by_session_id db sid safe_limit before
  let has_more := decide ((messages.length : Int) > safe_limit)
  let limited := if has_more then messages.dropLast else messages
  (limited.map SerializableMessage.fromDb, has_more)

instance : IsTotal DbMessage (fun a b => a.timestamp ≤ b.timestamp) :=
  ⟨fun a b => le_total a.timestamp b.timestamp⟩

instance : IsTrans DbMessage (fun a b => a.timestamp ≤ b.timestamp) :=
  ⟨fun _ _ _ hab hbc => le_trans hab hbc⟩

theorem sortAscByTimestamp_length (l : List DbMessage) :
    (sortAscByTimestamp l).length = l.length :=
  (List.perm_insertionSort _ l).length_eq

theorem sortDescByTimestamp_length (l : List DbMessage) :
    (sortDescByTimestamp l).length = l.length :=
  (List.perm_insertionSort _ l).length_eq

theorem sortAscByTimestamp_sorted (l : List DbMessage) :
    List.Sorted (fun a b => a.timestamp ≤ b.timestamp)
      (sortAscByTimestamp l) :=
  List.sorted_insertionSort _ l

theorem get_messages_length (db : List DbMessage) (sid : String)
    (limit : Int) (before : Option Int) :
    (get_messages_by_session_id db sid limit before).length =
      min (if limit ≤ 0 then 50 else if limit > 1000 then 1000 else limit).toNat.succ
        (db.filter (matchesQuery sid before)).length := by
  unfold get_messages_by_session_id
  rw [sortAscByTimestamp_length, List.length_take,
    sortDescByTimestamp_length]
  congr 1
  have h : (0 : Int) ≤ if limit ≤ 0 then 50 else if limit > 1000 then 1000 else limit := by
    by_cases h1 : limit ≤ 0
    · simp [h1]
    · by_cases h2 : limit > 1000
      · simp [h1, h2]
      · simp [h1, h2]; omega
  omega

end SUIperCHAT

namespace SUIperCHAT

/-- C2: the claim quantifies over every limit `k`, but
`handle_get_history` uses the unclamped `limit.unwrap_or(50)` for the
`has_more` comparison while the database query clamps `limit <= 0` to 50:
with `limit = 0` and a session holding 2 messages, the query returns both,
`has_more = (2 > 0) = true`, and one message is returned — the claim
demands exactly `k = 0` messages. -/
theorem history_pagination_cex :
    (([⟨"m1", 1, "a", "x", none, none, none, none, some "s"⟩,
       ⟨"m2", 2, "a", "y", none, none, none, none, some "s"⟩] :
        List DbMessage).filter (matchesQuery "s" none)).length ≥ 0 + 1
    ∧ (handle_get_history
        [⟨"m1", 1, "a", "x", none, none, none, none, some "s"⟩,
         ⟨"m2", 2, "a", "y", none, none, none, none, some "s"⟩]
        "s" (some 0) none).1.length = 1
    ∧ (handle_get_history
        [⟨"m1", 1, "a", "x", none, none, none, none, some "s"⟩,
         ⟨"m2", 2, "a", "y", none, none, none, none, some "s"⟩]
        "s" (some 0) none).2 = true := by
  refine ⟨by decide, by rfl, by rfl⟩

/-- C2 (amended): for every limit `1 ≤ k ≤ 1000` (the range on which the
database clamp is the identity), a `GetHistory` request with limit `k`
against a session holding at least `k + 1` matching persisted messages
returns exactly `k` messages with `has_more = true`, and when exactly `k`
matching messages exist it returns all `k` with `has_more = false`;
`has_more` comes from querying `k + 1` rows and checking whether more
than `k` came back. -/
theorem history_pagination (db : List DbMessage) (sid : String)
    (before : Option Int) (k : Nat) (hk1 : 1 ≤ k) (hk2 : k ≤ 1000) :
    ((db.filter (matchesQuery sid before)).length ≥ k + 1 →
      (handle_get_history db sid (some (k : Int)) before).1.length = k ∧
      (handle_get_history db sid (some (k : Int)) before).2 = true)
    ∧ ((db.filter (matchesQuery sid before)).length = k →
      (handle_get_history db sid (some (k : Int)) before).1.length = k ∧
      (handle_get_history db sid (some (k : Int)) before).2 = false) := by
  have hlen := get_messages_length db sid (k : Int) before
  rw [if_neg (by omega), if_neg (by omega)] at hlen
  have htn : ((k : Int)).toNat.succ = k + 1 := by omega
  rw [htn] at hlen
  constructor
  · intro hn
    have hml : (get_messages_by_session_id db sid ((k : Nat) : Int)
        before).length = k + 1 := by omega
    have hmore : decide (((get_messages_by_session_id db sid
        ((k : Nat) : Int) before).length : Int) > (k : Int)) = true := by
      rw [hml]; exact decide_eq_true (by push_cast; omega)
    simp only [handle_get_history, Option.getD_some]
    rw [hmore]
    refine ⟨?_, rfl⟩
    simp [hml]
  · intro hn
    have hml : (get_messages_by_session_id db sid ((k : Nat) : Int)
        before).length = k := by omega
    have hmore : decide (((get_messages_by_session_id db sid
        ((k : Nat) : Int) before).length : Int) > (k : Int)) = false := by
      rw [hml]; exact decide_eq_false (by omega)
    simp only [handle_get_history, Option.getD_some]
    rw [hmore]
    refine ⟨?_, rfl⟩
    simp [hml]

/-- Witness for `history_pagination`: `k = 1` against a session with two
messages (`has_more` case) and with one message (exact case). -/
theorem history_pagination_witness :
    ((1 : Nat) ≤ 1 ∧ (1 : Nat) ≤ 1000)
    ∧ (handle_get_history
        [⟨"m1", 1, "a", "x", none, none, none, none, some "s"⟩,
         ⟨"m2", 2, "a", "y", none, none, none, none, some "s"⟩]
        "s" (some 1) none).1.length = 1
    ∧ (handle_get_history
        [⟨"m1", 1, "a", "x", none, none, none, none, some "s"⟩,
         ⟨"m2", 2, "a", "y", none, none, none, none, some "s"⟩]
        "s" (some 1) none).2 = true
    ∧ (handle_get_history
        [⟨"m1", 1, "a", "x", none, none, none, none, some "s"⟩]
        "s" (some 1) none).1.length = 1
    ∧ (handle_get_history
        [⟨"m1", 1, "a", "x", none, none, none, none, some "s"⟩]
        "s" (some 1) none).2 = false := by
  refine ⟨⟨le_refl 1, by omega⟩, ?_, ?_, ?_, ?_⟩
  · exact ((history_pagination
      [⟨"m1", 1, "a", "x", none, none, none, none, some "s"⟩,
       ⟨"m2", 2, "a", "y", none, none, none, none, some "s"⟩]
      "s" none 1 (le_refl 1) (by omega)).1 (by decide)).1
  · exact ((history_pagination
      [⟨"m1", 1, "a", "x", none, none, none, none, some "s"⟩,
       ⟨"m2", 2, "a", "y", none, none, none, none, some "s"⟩]
      "s" none 1 (le_refl 1) (by omega)).1 (by decide)).2
  · exact ((history_pagination
      [⟨"m1", 1, "a", "x", none, none, none, none, some "s"⟩]
      "s" none 1 (le_refl 1) (by omega)).2 (by decide)).1
  · exact ((history_pagination
      [⟨"m1", 1, "a", "x", none, none, none, none, some "s"⟩]
      "s" none 1 (le_refl 1) (by omega)).2 (by decide)).2

end SUIperCHAT

namespace SUIperCHAT

theorem get_messages_sorted (db : List DbMessage) (sid : String)
    (limit : Int) (before : Option Int) :
    List.Sorted (fun a b : DbMessage => a.timestamp ≤ b.timestamp)
      (get_messages_by_session_id db sid limit before) :=
  sortAscByTimestamp_sorted _

theorem sorted_map_fromDb {l : List DbMessage}
    (h : List.Sorted (fun a b : DbMessage => a.timestamp ≤ b.timestamp) l) :
    List.Sorted
      (fun a b : SerializableMessage => a.timestamp ≤ b.timestamp)
      (l.map SerializableMessage.fromDb) := by
  rw [List.Sorted, List.pairwise_map]
  exact h

theorem limited_sorted (M : List DbMessage) (b : Bool)
    (h : List.Sorted (fun a c : DbMessage => a.timestamp ≤ c.timestamp) M) :
    List.Sorted
      (fun a c : SerializableMessage => a.timestamp ≤ c.timestamp)
      ((if b = true then M.dropLast else M).map
        SerializableMessage.fromDb) := by
  cases b
  · simpa using sorted_map_fromDb h
  · simp only [if_pos rfl]
    exact sorted_map_fromDb (List.Pairwise.sublist (List.dropLast_sublist M) h)

theorem handle_get_history_fst (db : List DbMessage) (sid : String)
    (limit : Option Int) (before : Option Int) :
    (handle_get_history db sid limit before).1 =
      (if (handle_get_history db sid limit before).2 = true then
        (get_messages_by_session_id db sid (limit.getD 50) before).dropLast
      else
        get_messages_by_session_id db sid (limit.getD 50) before).map
          SerializableMessage.fromDb := rfl

/-- C10: every `HISTORY_DATA` response lists its messages in ascending
server-timestamp order (the query fetches the newest rows in descending
order and re-sorts them ascending, `database.rs` lines 230-239), and when
the extra `limit+1`-th row was fetched (`has_more`), the element dropped
before responding is the final element of that ascending list
(`messages[..messages.len() - 1]`, `session.rs` lines 395-399). -/
theorem history_response_order (db : List DbMessage) (sid : String)
    (limit : Option Int) (before : Option Int) :
    List.Sorted
      (fun a b : SerializableMessage => a.timestamp ≤ b.timestamp)
      (handle_get_history db sid limit before).1
    ∧ ((handle_get_history db sid limit before).2 = true →
      (handle_get_history db sid limit before).1 =
        ((get_messages_by_session_id db sid (limit.getD 50)
            before).dropLast).map SerializableMessage.fromDb) := by
  constructor
  · rw [handle_get_history_fst]
    exact limited_sorted _ _ (get_messages_sorted db sid (limit.getD 50) before)
  · intro h2
    rw [handle_get_history_fst, h2]
    simp

/-- Witness for `history_response_order`: a three-message session queried
with `limit = 2` has `has_more = true` and drops exactly the newest
(final) element of the ascending list. -/
theorem history_response_order_witness :
    ((handle_get_history
        [⟨"m2", 2, "a", "y", none, none, none, none, some "s"⟩,
         ⟨"m3", 3, "a", "z", none, none, none, none, some "s"⟩,
         ⟨"m1", 1, "a", "x", none, none, none, none, some "s"⟩]
        "s" (some 2) none).2 = true)
    ∧ ((handle_get_history
        [⟨"m2", 2, "a", "y", none, none, none, none, some "s"⟩,
         ⟨"m3", 3, "a", "z", none, none, none, none, some "s"⟩,
         ⟨"m1", 1, "a", "x", none, none, none, none, some "s"⟩]
        "s" (some 2) none).1 =
      ((get_messages_by_session_id
        [⟨"m2", 2, "a", "y", none, none, none, none, some "s"⟩,
         ⟨"m3", 3, "a", "z", none, none, none, none, some "s"⟩,
         ⟨"m1", 1, "a", "x", none, none, none, none, some "s"⟩]
        "s" 2 none).dropLast).map SerializableMessage.fromDb) := by
  refine ⟨by decide, ?_⟩
  exact (history_response_order
    [⟨"m2", 2, "a", "y", none, none, none, none, some "s"⟩,
     ⟨"m3", 3, "a", "z", none, none, none, none, some "s"⟩,
     ⟨"m1", 1, "a", "x", none, none, none, none, some "s"⟩]
    "s" (some 2) none).2 (by decide)

end SUIperCHAT

namespace SUIperCHAT

/-! ## Server lifecycle (`ws_server/server_manager.rs`, `types.rs`)

`stop_server` (lines 82-268) takes the stored server-handle pair, the
runtime handle and the tunnel info out of `AppState`, clears the current
session id, and branches: with handles and a runtime it clears host/port
info, stops tunnel/session/servers and emits a final
`ServerStatus{is_running:false}`; with handles but no runtime it returns
an error (without emitting); with *no stored handle* it emits
`ServerStatus{is_running:false}` and returns `Ok(())`.  The spawned
asynchronous stop tasks are modelled as completing before the call
returns, so their emission is part of the call's event list. -/

/-- `ServerStatus` (`types.rs`, lines 504-524). -/
structure ServerStatus where
  is_running : Bool
  ws_url : Option String
  obs_url : Option String
  global_ip_fetch_failed : Bool
  cgnat_detected : Bool
  cloudflare_http_url : Option String
  tunnel_status : String
  tunnel_error : Option String
  deriving Repr, DecidableEq

/-- The parts of `AppState` (`state.rs`) that `stop_server` reads or
writes.  Handles are opaque (`Nat`); `tunnel_info` is
`Option<Result<TunnelInfo, TunnelError>>`. -/
structure AppServerState where
  server_handle : Option (Nat × Nat)
  runtime_handle : Option Nat
  tunnel_info : Option (Except String Nat)
  current_session_id : Option String
  db_pool : Option Nat
  host : Option String
  port : Option Nat
  obs_port : Option Nat
  cgnat_detected : Bool
  global_ip_fetch_failed : Bool
  deriving Repr

/-- `emit_server_status` (`server_manager.rs`, lines 279-310): the payload
of one `server_status_updated` event. -/
def emit_server_status (st : AppServerState) (is_running : Bool)
    (ws_url obs_url : Option String) : ServerStatus :=
  { is_running := is_running,
    ws_url := ws_url,
    obs_url := obs_url,
    global_ip_fetch_failed := st.global_ip_fetch_failed,
    cgnat_detected := st.cgnat_detected,
    cloudflare_http_url := none,
    tunnel_status := if is_running then "Starting" else "Stopped",
    tunnel_error := none }

/-- `stop_server` (`server_manager.rs`, lines 82-268): result is the new
state, the returned `Result`, and the list of `server_status_updated`
events emitted during the call (including those of the spawned stop
task). -/
def stop_server (st : AppServerState) :
    AppServerState × Except String Unit × List ServerStatus :=
  let handles := st.server_handle
  let rt := st.runtime_handle
  let st1 := { st with
    server_handle := none, runtime_handle := none, tunnel_info := none,
    current_session_id := none }
  match handles with
  | some _ =>
    match rt with
    | some _ =>
      let st2 := { st1 with host := none, port := none, obs_port := none }
      (st2, .ok (), [emit_server_status st2 false none none])
    | none =>
      (st1,
       .error "No runtime handle available to stop the servers properly.",
       [])
  | none => (st1, .ok (), [emit_server_status st1 false none none])

/-- An `AppState` with no stored server handle (server not running). -/
def stoppedState : AppServerState :=
  ⟨none, none, none, none, none, none, none, none, false, false⟩

/-- C3: calling `stop_server` with no stored handle *succeeds* with
`Ok(())` — it does not fail with a `NotRunning`-class error — while still
emitting a status event with `is_running: false` (`server_manager.rs`,
lines 263-266).  This refutes the error half of the claim.  (The older
Tauri command `stop_websocket_server` in `commands/server.rs` does return
`Err("Server not running.")`, but the lifecycle manager the claim cites
does not.) -/
theorem stop_not_running_cex :
    ((stop_server stoppedState).2.1 = Except.ok ())
    ∧ ((stop_server stoppedState).2.2.map ServerStatus.is_running =
        [false]) :=
  ⟨rfl, rfl⟩

/-- C3 (amended): calling `stop()` when no server handle is stored
returns `Ok(())` (not an error) and still emits exactly one server-status
event with `is_running: false` and `tunnel_status: "Stopped"`, so
observers are never left inconsistent; the current session id is cleared
as well. -/
theorem stop_when_not_running (st : AppServerState)
    (h : st.server_handle = none) :
    ((stop_server st).2.1 = Except.ok ())
    ∧ ((stop_server st).2.2.map ServerStatus.is_running = [false])
    ∧ ((stop_server st).2.2.map ServerStatus.tunnel_status = ["Stopped"])
    ∧ ((stop_server st).1.current_session_id = none) := by
  obtain ⟨sh, rt, tun, sess, db, host, port, obsp, cg, gf⟩ := st
  simp only at h
  subst h
  exact ⟨rfl, rfl, rfl, rfl⟩

/-- Witness for `stop_when_not_running` at a concrete stopped state with
stale session/flag values. -/
theorem stop_when_not_running_witness :
    ((stop_server ⟨none, some 7, none, some "old-session", some 1,
        some "127.0.0.1", some 8082, some 8081, true, true⟩).2.1 =
      Except.ok ())
    ∧ ((stop_server ⟨none, some 7, none, some "old-session", some 1,
        some "127.0.0.1", some 8082, some 8081, true, true⟩).2.2.map
          ServerStatus.is_running = [false]) := by
  have h := stop_when_not_running ⟨none, some 7, none, some "old-session",
    some 1, some "127.0.0.1", some 8082, some 8081, true, true⟩ rfl
  exact ⟨h.1, h.2.1⟩

end SUIperCHAT
